import Mathlib

/-!
# Verification of the document-chat client (chat page, ingest page, voice capture)

Shallow embedding of the client-side state logic of the repository:

* `src/pages/chat.js` — multi-page chat store (`createNewPage`, `deletePage`,
  `selectPage`, `updatePageTitle`, `updatePageMessages`, `sendMessage`) and the
  `handleVoiceInput` speech-capture toggle;
* `src/unnamed/part_000` — a second variant of the chat page whose store
  functions are identical and whose voice capture (`stopListening` /
  `handleVoiceInput`) differs;
* `src/pages/ingest.js` — file staging (`isFileSupported`, `handleDrop`,
  `handleFileInput`) and `uploadFiles`.

Modelling conventions:

* React `useState` state is gathered into explicit state records; each event
  handler becomes a pure state-transition function.  A functional
  `setX(prev => ...)` update is applied to the state threaded through the
  handler, while a plain read of a state variable inside the handler reads the
  value captured by the handler's closure (the value at invocation time), as
  React closures do.
* The asynchronous `sendMessage` is split at its `await` point:
  `sendStart` performs everything before the network call and returns the data
  captured by the closure (`PendingQuery`); `sendResolve` performs the
  continuation that runs when the promise settles.  The network itself is a
  collaborator, represented by a `QueryOutcome` parameter.
* `Date.now()` instants and ISO timestamps are modelled as naturals supplied
  by the environment; `Date.now().toString()` becomes `toString : Nat → String`.
* JavaScript `String.prototype.slice(0, 50)` / `trim()` / `toLowerCase()` /
  `endsWith` are modelled by the character-level functions `jsTake 50` /
  `jsTrim` / `jsToLower` / `jsEndsWith` below (code-unit vs. character
  subtleties of UTF-16 are out of scope; all comparisons in the source are
  exact equality).
-/

/-- JS `String.prototype.toLowerCase()` (character-wise lowering). -/
def jsToLower (s : String) : String := ⟨s.data.map Char.toLower⟩

/-- JS `String.prototype.endsWith(post)`. -/
def jsEndsWith (s post : String) : Bool := post.data.isSuffixOf s.data

/-- JS `String.prototype.trim()`: strip leading and trailing whitespace. -/
def jsTrim (s : String) : String :=
  ⟨((s.data.dropWhile Char.isWhitespace).reverse.dropWhile
      Char.isWhitespace).reverse⟩

/-- JS `String.prototype.slice(0, n)`. -/
def jsTake (n : Nat) (s : String) : String := ⟨s.data.take n⟩

namespace DocChat

/-- A chat message as built by `sendMessage` in `src/pages/chat.js`
(`{ id, type, content, context?, timestamp }`).  `context` is present only on
assistant messages (`undefined` otherwise, a key `JSON.stringify` omits). -/
structure Message where
  id : Nat
  type : String
  content : String
  context : Option String := none
  timestamp : Nat := 0
  deriving Repr, DecidableEq

/-- A chat page (session) as built by `createNewPage`:
`{ id: Date.now().toString(), title: 'New Chat', messages: [], createdAt }`. -/
structure Page where
  id : String
  title : String
  messages : List Message
  createdAt : Nat
  deriving Repr, DecidableEq

/-- The chat page component's state: `chatPages`, `currentPageId`, `messages`
(the active view), `inputValue` (the composer) and `isLoading` (the in-flight
flag).  `currentPageId : Option String` models the `string | null` field. -/
structure ChatState where
  chatPages : List Page
  currentPageId : Option String
  messages : List Message
  inputValue : String
  isLoading : Bool
  deriving Repr, DecidableEq

/-- The ids of the pages in the store, in list order. -/
def pageIds (s : ChatState) : List String := s.chatPages.map Page.id

/-- `createNewPage` (src/pages/chat.js lines 84–96): appends a fresh page with
id `Date.now().toString()`, makes it current, clears view and composer. -/
def createNewPage (now : Nat) (s : ChatState) : ChatState :=
  let newPage : Page :=
    { id := toString now, title := "New Chat", messages := [], createdAt := now }
  { s with
    chatPages := s.chatPages ++ [newPage]
    currentPageId := some newPage.id
    messages := []
    inputValue := "" }

/-- `deletePage` (src/pages/chat.js lines 98–111): filters the page out; if it
was current, reselects the last remaining page, or creates a fresh page when
none remain (the fresh id is `Date.now().toString()`, here `now`). -/
def deletePage (pageId : String) (now : Nat) (s : ChatState) : ChatState :=
  let updatedPages := s.chatPages.filter (fun page => page.id != pageId)
  let s1 := { s with chatPages := updatedPages }
  if some pageId = s.currentPageId then
    match updatedPages.getLast? with
    | some newCurrentPage =>
        { s1 with
          currentPageId := some newCurrentPage.id
          messages := newCurrentPage.messages }
    | none => createNewPage now s1
  else s1

/-- `selectPage` (src/pages/chat.js lines 113–119): switches the current page
and loads its messages; no-op when the id is unknown. -/
def selectPage (pageId : String) (s : ChatState) : ChatState :=
  match s.chatPages.find? (fun p => p.id == pageId) with
  | some page =>
      { s with currentPageId := some pageId, messages := page.messages }
  | none => s

/-- `updatePageTitle` (src/pages/chat.js lines 121–129): sets the matching
page's title to `title.slice(0, 50)`; `pageId : Option String` models the
`string | null` argument (`page.id === null` never holds). -/
def updatePageTitle (pageId : Option String) (title : String) (s : ChatState) :
    ChatState :=
  { s with
    chatPages := s.chatPages.map (fun page =>
      if some page.id = pageId then { page with title := jsTake 50 title }
      else page) }

/-- `updatePageMessages` (src/pages/chat.js lines 131–139): replaces the
matching page's message list wholesale. -/
def updatePageMessages (pageId : Option String) (newMessages : List Message)
    (s : ChatState) : ChatState :=
  { s with
    chatPages := s.chatPages.map (fun page =>
      if some page.id = pageId then { page with messages := newMessages }
      else page) }

/-- The data captured by the `sendMessage` closure at call time and used by the
continuation after `await fetch`: the page id that was current when the send
was issued, the optimistically appended message list, and the query text. -/
structure PendingQuery where
  pid : Option String
  newMessages : List Message
  query : String
  deriving Repr, DecidableEq

instance : Inhabited PendingQuery := ⟨⟨none, [], ""⟩⟩

/-- First half of `sendMessage` (src/pages/chat.js lines 267–288), up to the
`fetch`: guard on empty/whitespace composer or in-flight send; build the user
message; optimistic append to view and store; derive the title from the raw
input when the current page's title is still `"New Chat"`; clear the composer
and set the in-flight flag.  Returns the closure data for the continuation
(`none` when the guard fired and no request is issued). -/
def sendStart (now : Nat) (s : ChatState) : ChatState × Option PendingQuery :=
  if jsTrim s.inputValue = "" ∨ s.isLoading then (s, none)
  else
    let userMessage : Message :=
      { id := now, type := "user", content := s.inputValue, timestamp := now }
    let newMessages := s.messages ++ [userMessage]
    let s1 := { s with messages := newMessages }
    let s2 := updatePageMessages s.currentPageId newMessages s1
    let s3 :=
      match s.chatPages.find? (fun p => some p.id == s.currentPageId) with
      | some currentPage =>
          if currentPage.title = "New Chat" then
            updatePageTitle s.currentPageId s.inputValue s2
          else s2
      | none => s2
    ({ s3 with inputValue := "", isLoading := true },
     some { pid := s.currentPageId, newMessages := newMessages,
            query := s.inputValue })

/-- Outcome of the `/query` request: a parsed 2xx response, or any network
error / non-2xx status (both reach the same `catch` block). -/
inductive QueryOutcome
  | ok (answer : String) (context : Option String)
  | fail
  deriving Repr, DecidableEq

/-- The fixed error-message text of the `catch` block of `sendMessage`. -/
def queryErrorText : String :=
  "Failed to get response. Please check if the server is running and documents are ingested."

/-- The assistant (or error) message the `sendMessage` continuation builds
from the outcome, with id `Date.now() + 1`. -/
def replyMessage (outcome : QueryOutcome) (now : Nat) : Message :=
  match outcome with
  | .ok answer context =>
      { id := now + 1, type := "assistant", content := answer,
        context := context, timestamp := now }
  | .fail =>
      { id := now + 1, type := "error", content := queryErrorText,
        timestamp := now }

/-- Second half of `sendMessage` (src/pages/chat.js lines 290–332): when the
promise settles, append the assistant or error message to the *captured*
message list, write it to the *captured* page id (`currentPageId` read from
the closure, i.e. the page current at call time), and clear the in-flight
flag (`finally`).  `s` is whatever the state is at resolution time. -/
def sendResolve (pending : PendingQuery) (outcome : QueryOutcome) (now : Nat)
    (s : ChatState) : ChatState :=
  let finalMessages := pending.newMessages ++ [replyMessage outcome now]
  let s1 := { s with messages := finalMessages }
  { updatePageMessages pending.pid finalMessages s1 with isLoading := false }

/-- The component's state before the load-from-storage effect runs. -/
def initialState : ChatState :=
  { chatPages := [], currentPageId := none, messages := [],
    inputValue := "", isLoading := false }

/-- The load-from-localStorage effect (src/pages/chat.js lines 45–61):
`saved = none` models an absent key (first visit), in which case the first
page is created; otherwise the decoded page list is installed and the last
page (if any) becomes current. -/
def loadFromStorage (saved : Option (List Page)) (now : Nat) : ChatState :=
  match saved with
  | some pages =>
      match pages.getLast? with
      | some lastPage =>
          { initialState with
            chatPages := pages
            currentPageId := some lastPage.id
            messages := lastPage.messages }
      | none => { initialState with chatPages := pages }
  | none => createNewPage now initialState

end DocChat

namespace Ingest

/-- An `uploadStatus` banner value `{ type, message }` from
`src/pages/ingest.js`. -/
structure Status where
  type : String
  message : String
  deriving Repr, DecidableEq

/-- The ingest page's state relevant to staging and upload: the staged file
list (a `File` is represented by its name — the only attribute staging and
validation consult), the status banner, and the in-flight flag. -/
structure IngestState where
  files : List String
  uploadStatus : Option Status
  isUploading : Bool
  deriving Repr, DecidableEq

/-- `supportedFormats` (src/pages/ingest.js line 13). -/
def supportedFormats : List String := [".docx", ".pdf", ".csv", ".txt"]

/-- `isFileSupported` (src/pages/ingest.js lines 16–20): case-insensitive
suffix match against the allow-list. -/
def isFileSupported (fileName : String) : Bool :=
  supportedFormats.any (fun format => jsEndsWith (jsToLower fileName) format)

/-- The error banner text produced when some input files are rejected:
`` `Some files were skipped. Only ${supportedFormats.join(', ')} files are supported.` ``. -/
def skippedMessage : String :=
  "Some files were skipped. Only " ++ String.intercalate ", " supportedFormats
    ++ " files are supported."

/-- `handleDrop` (src/pages/ingest.js lines 48–68): guarded by
`e.dataTransfer.files && e.dataTransfer.files[0]` (no-op on an empty drop);
filters the dropped files through `isFileSupported`, sets the skip error when
any were rejected, and appends the accepted files to the staged list. -/
def handleDrop (droppedFiles : List String) (s : IngestState) : IngestState :=
  if droppedFiles.isEmpty then s
  else
    let supportedFiles := droppedFiles.filter isFileSupported
    let s1 :=
      if supportedFiles.length ≠ droppedFiles.length then
        { s with uploadStatus := some ⟨"error", skippedMessage⟩ }
      else s
    { s1 with files := s1.files ++ supportedFiles }

/-- `handleFileInput` (src/pages/ingest.js lines 70–86): same filtering and
append for the file picker (`e.target.files` is always set on a change
event). -/
def handleFileInput (selectedFiles : List String) (s : IngestState) :
    IngestState :=
  let supportedFiles := selectedFiles.filter isFileSupported
  let s1 :=
    if supportedFiles.length ≠ selectedFiles.length then
      { s with uploadStatus := some ⟨"error", skippedMessage⟩ }
    else s
  { s1 with files := s1.files ++ supportedFiles }

/-- Outcome of the `/ingest` request: parsed 2xx response carrying the
server's `message`, or a non-2xx status / network failure (both reach the
same `catch`). -/
inductive UploadOutcome
  | ok (message : String)
  | fail
  deriving Repr, DecidableEq

/-- The empty-staged-list error text (src/pages/ingest.js line 101). -/
def emptyListError : String := "Please select at least one supported file"

/-- The generic upload-failure text (src/pages/ingest.js line 139). -/
def genericUploadError : String :=
  "Failed to upload files. Please check if the server is running."

/-- `uploadFiles` (src/pages/ingest.js lines 97–144) as observed when the
operation completes (after `finally`): on an empty staged list it sets an
error status and returns without a request; otherwise it issues the request
and, on success, sets the server's message as a success status (the staged
list is cleared only by a separate 2-second `setTimeout`, see
`delayedClearAfterSuccess`); on failure it sets the generic error status and
leaves the staged list alone.  The boolean reports whether a network request
was issued. -/
def uploadFiles (outcome : UploadOutcome) (s : IngestState) :
    IngestState × Bool :=
  if s.files.isEmpty then
    ({ s with uploadStatus := some ⟨"error", emptyListError⟩ }, false)
  else
    match outcome with
    | .ok msg =>
        ({ s with isUploading := false,
                  uploadStatus := some ⟨"success", msg⟩ }, true)
    | .fail =>
        ({ s with isUploading := false,
                  uploadStatus := some ⟨"error", genericUploadError⟩ }, true)

/-- The `setTimeout(() => setFiles([]), 2000)` that follows a successful
upload. -/
def delayedClearAfterSuccess (s : IngestState) : IngestState :=
  { s with files := [] }

end Ingest

namespace VoiceChat

/-!
Voice capture, `src/pages/chat.js` variant (`handleVoiceInput`, lines
141–265).  The event-driven recognizer is modelled as a labelled transition
system: `listening` is the React state flag; `sessionActive` records that a
native recognition session has been created and its `onend` has not fired;
`stopRequested` records that `recognition.stop()` has been called on the
active session (the recognizer then ends, firing `onend`); `totalTimer` /
`silenceTimer` record pending `setTimeout` callbacks; `sessionsStarted`
counts how many recognition sessions were ever created.  `browserSupports
Recognition` is assumed true (otherwise the handler is a global no-op).
-/

/-- State of the chat.js voice-capture loop. -/
structure VState where
  listening : Bool
  sessionActive : Bool
  stopRequested : Bool
  totalTimer : Bool
  silenceTimer : Bool
  sessionsStarted : Nat
  inputValue : String
  deriving Repr, DecidableEq

/-- The idle state before any interaction. -/
def init : VState :=
  { listening := false, sessionActive := false, stopRequested := false,
    totalTimer := false, silenceTimer := false, sessionsStarted := 0,
    inputValue := "" }

/-- Pressing the voice button (`handleVoiceInput`).  When not listening:
sets `listening`, creates and starts a new recognition session, whose
`onstart` arms the 30-second maximum-duration timer.  When listening (lines
260–264): only `setListening(false)` runs — no `recognition.stop()` call, no
timer change; the session itself is untouched. -/
def press (s : VState) : VState :=
  if s.listening then { s with listening := false }
  else
    { s with listening := true, sessionActive := true, stopRequested := false,
             totalTimer := true, silenceTimer := false,
             sessionsStarted := s.sessionsStarted + 1 }

/-- An `onresult` event from the active session: pushes the transcript into
the composer and (re)arms the 3-second silence timer; the maximum-duration
timer is not touched. -/
def result (text : String) (s : VState) : VState :=
  if s.sessionActive then { s with inputValue := text, silenceTimer := true }
  else s

/-- The silence timer fires: `recognition.stop()` is called on the captured
session. -/
def silenceFire (s : VState) : VState :=
  if s.silenceTimer then
    { s with silenceTimer := false, stopRequested := s.sessionActive }
  else s

/-- The maximum-duration timer fires (`totalTimer` callback, lines 170–172):
`recognition.stop()` is called on the captured session. -/
def totalFire (s : VState) : VState :=
  if s.totalTimer then
    { s with totalTimer := false, stopRequested := s.sessionActive }
  else s

/-- The session's `onend` event (lines 216–229): clears `listening` and both
timers; the session is over.  The recognizer guarantees `onend` after
`recognition.stop()`. -/
def endEvent (s : VState) : VState :=
  if s.sessionActive then
    { s with listening := false, sessionActive := false, stopRequested := false,
             totalTimer := false, silenceTimer := false }
  else s

/-- Folding a burst of `onresult` events (continuous speech). -/
def results (texts : List String) (s : VState) : VState :=
  texts.foldl (fun t text => result text t) s

end VoiceChat

namespace VoicePart

/-!
Voice capture, `src/unnamed/part_000` variant (`stopListening` /
`handleVoiceInput`, lines 152–288).  Here `recognitionRef` holds the active
session (modelled by `sessionActive`), `recognitionTimeoutRef` the 15-second
maximum-duration timer (`maxTimer`), and `stopListening` synchronously calls
`recognition.stop()`, clears the timer and sets `listening` false.
-/

/-- State of the part_000 voice-capture loop. -/
structure VState where
  listening : Bool
  sessionActive : Bool
  stopRequested : Bool
  maxTimer : Bool
  sessionsStarted : Nat
  inputValue : String
  deriving Repr, DecidableEq

/-- The idle state before any interaction. -/
def init : VState :=
  { listening := false, sessionActive := false, stopRequested := false,
    maxTimer := false, sessionsStarted := 0, inputValue := "" }

/-- `stopListening` (lines 152–161): `recognitionRef.current.stop()` when a
session is active, clear the timeout, `setListening(false)`. -/
def stopListening (s : VState) : VState :=
  { s with stopRequested := s.stopRequested || s.sessionActive,
           maxTimer := false, listening := false }

/-- Pressing the voice button (`handleVoiceInput`).  While listening it calls
`stopListening` and returns; otherwise it creates and starts a session, whose
`onstart` sets `listening` and arms the 15-second maximum-duration timer. -/
def press (s : VState) : VState :=
  if s.listening then stopListening s
  else
    { s with listening := true, sessionActive := true, stopRequested := false,
             maxTimer := true, sessionsStarted := s.sessionsStarted + 1 }

/-- An `onresult` event: pushes the transcript into the composer; no timer in
this variant is result-driven. -/
def result (text : String) (s : VState) : VState :=
  if s.sessionActive then { s with inputValue := text } else s

/-- The maximum-duration timer fires: its callback is `stopListening`. -/
def totalFire (s : VState) : VState :=
  if s.maxTimer then stopListening s else s

/-- The session's `onend` event (lines 228–242): clears `listening`, nulls
the session ref, clears the timer. -/
def endEvent (s : VState) : VState :=
  if s.sessionActive then
    { s with listening := false, sessionActive := false, stopRequested := false,
             maxTimer := false }
  else s

/-- Folding a burst of `onresult` events (continuous speech). -/
def results (texts : List String) (s : VState) : VState :=
  texts.foldl (fun t text => result text t) s

end VoicePart

namespace DocChat

/-!
Persistence (src/pages/chat.js lines 45–61 and 69–73).  The page list is
written with `localStorage.setItem('chatPages', JSON.stringify(chatPages))`
and read back with `JSON.parse(localStorage.getItem('chatPages'))`.  Both
`localStorage` round-tripping of strings and `JSON.parse ∘ JSON.stringify`
being the identity on JSON value trees built from strings, finite integers,
arrays and plain objects are platform contracts; the repository's own
contribution is which fields are written and how the load path consumes them.
We therefore model the stored blob at the JSON-value level: `pagesToJson` is
the value tree `JSON.stringify` serializes (note it drops `undefined`-valued
keys such as a missing `context`), and `pagesFromJson` decodes exactly the
fields the component reads (`id`, `title`, `messages || []`, `createdAt`;
messages: `id`, `type`, `content`, optional `context`, `timestamp`).
-/

/-- JSON value trees (the fragment this application produces). -/
inductive Json
  | null
  | num (n : Nat)
  | str (s : String)
  | arr (items : List Json)
  | obj (fields : List (String × Json))

/-- Field lookup in a JSON object (property access on the parsed value). -/
def Json.getField : Json → String → Option Json
  | .obj fields, key => fields.lookup key
  | _, _ => none

/-- Decode every element of a list, failing if any element fails. -/
def decodeList (f : Json → Option α) : List Json → Option (List α)
  | [] => some []
  | j :: js =>
      match f j, decodeList f js with
      | some a, some as => some (a :: as)
      | _, _ => none

/-- The JSON value `JSON.stringify` produces for one message.  A `none`
context models the `undefined` field of user/error messages, which
`JSON.stringify` omits. -/
def msgToJson (m : Message) : Json :=
  .obj ([("id", .num m.id), ("type", .str m.type),
         ("content", .str m.content)]
    ++ (match m.context with
        | some c => [("context", .str c)]
        | none => [])
    ++ [("timestamp", .num m.timestamp)])

/-- Decoding one message: the fields the chat page consumes. -/
def msgFromJson (j : Json) : Option Message :=
  match j.getField "id", j.getField "type", j.getField "content",
        j.getField "timestamp" with
  | some (.num i), some (.str t), some (.str c), some (.num ts) =>
      some { id := i, type := t, content := c,
             context := (match j.getField "context" with
                         | some (.str ctx) => some ctx
                         | _ => none),
             timestamp := ts }
  | _, _, _, _ => none

/-- The JSON value `JSON.stringify` produces for one page. -/
def pageToJson (p : Page) : Json :=
  .obj [("id", .str p.id), ("title", .str p.title),
        ("messages", .arr (p.messages.map msgToJson)),
        ("createdAt", .num p.createdAt)]

/-- Decoding one page as the load effect consumes it; a missing or null
`messages` field decodes to `[]` (the `page.messages || []` fallback). -/
def pageFromJson (j : Json) : Option Page :=
  match j.getField "id", j.getField "title", j.getField "createdAt" with
  | some (.str i), some (.str t), some (.num c) =>
      match j.getField "messages" with
      | some (.arr items) =>
          match decodeList msgFromJson items with
          | some msgs => some { id := i, title := t, messages := msgs,
                                createdAt := c }
          | none => none
      | some .null => some { id := i, title := t, messages := [], createdAt := c }
      | none => some { id := i, title := t, messages := [], createdAt := c }
      | _ => none
  | _, _, _ => none

/-- The serialized snapshot of the whole page list. -/
def pagesToJson (pages : List Page) : Json := .arr (pages.map pageToJson)

/-- Decoding the stored snapshot back into a page list. -/
def pagesFromJson : Json → Option (List Page)
  | .arr items => decodeList pageFromJson items
  | _ => none

/-- The user-driven operations of the chat page.  `create`, `delete` and
`send` take the `Date.now()` instant of their invocation; `typeInput` is the
composer's change handler; `resolve` is the landing of an in-flight
`sendMessage` continuation with arbitrary captured closure data (this
over-approximates the continuations the page can really have in flight, so
any invariant proved over these operations covers them). -/
inductive ChatOp
  | create (now : Nat)
  | delete (pageId : String) (now : Nat)
  | select (pageId : String)
  | typeInput (text : String)
  | send (now : Nat)
  | resolve (pending : PendingQuery) (outcome : QueryOutcome) (now : Nat)
  deriving Repr

/-- One operation applied to the component state. -/
def applyOp : ChatOp → ChatState → ChatState
  | .create now, s => createNewPage now s
  | .delete pageId now, s => deletePage pageId now s
  | .select pageId, s => selectPage pageId s
  | .typeInput text, s => { s with inputValue := text }
  | .send now, s => (sendStart now s).1
  | .resolve pending outcome now, s => sendResolve pending outcome now s

/-- A sequence of operations applied in order. -/
def run (ops : List ChatOp) (s : ChatState) : ChatState :=
  ops.foldl (fun t op => applyOp op t) s

/-- The clock assumption for an operation: any operation that may mint a page
id (`Date.now().toString()`) gets an instant whose string form is not already
a page id.  (`Date.now()` is time-based; the spec calls page ids "time-based
unique tokens".) -/
def opFresh : ChatOp → ChatState → Bool
  | .create now, s => !(pageIds s).contains (toString now)
  | .delete _ now, s => !(pageIds s).contains (toString now)
  | _, _ => true

/-- The clock assumption along a whole run. -/
def freshRun : List ChatOp → ChatState → Bool
  | [], _ => true
  | op :: ops, s => opFresh op s && freshRun ops (applyOp op s)

/-- Store well-formedness: page ids are pairwise distinct and the current
page id refers to a page present in the list. -/
def StoreInv (s : ChatState) : Prop :=
  (pageIds s).Nodup ∧ ∃ pid, s.currentPageId = some pid ∧ pid ∈ pageIds s

/-- What the durable storage can hold at load time: the key is absent, or it
holds a snapshot a previous session wrote — the save effect only writes
non-empty lists (src/pages/chat.js line 70) whose ids are distinct. -/
def WFStored : Option (List Page) → Prop
  | none => True
  | some pages => pages ≠ [] ∧ (pages.map Page.id).Nodup

/-! Concrete scenario for the cross-page resolution behaviour (`sendMessage`
issued on page "1", page "2" selected before the response resolves). -/

/-- Scenario: the page that issues the request. -/
def c1P : Page := { id := "1", title := "Alpha", messages := [], createdAt := 1 }

/-- Scenario: the page the user switches to mid-flight. -/
def c1Q : Page := { id := "2", title := "Beta", messages := [], createdAt := 2 }

/-- Scenario: initial state, page "1" current, composer holds "hi". -/
def c1s0 : ChatState :=
  { chatPages := [c1P, c1Q], currentPageId := some "1", messages := [],
    inputValue := "hi", isLoading := false }

/-- Scenario: the closure data captured by the send issued on page "1". -/
def c1pending : PendingQuery := (sendStart 10 c1s0).2.getD default

/-- Scenario: state after the send is issued on page "1", the user selects
page "2", and the query response then resolves. -/
def c1final : ChatState :=
  sendResolve c1pending (.ok "the answer" none) 20
    (selectPage "2" (sendStart 10 c1s0).1)

/-- Concrete page for deletion scenarios (created first). -/
def pageA : Page := { id := "a", title := "A", messages := [], createdAt := 1 }

/-- Concrete page for deletion scenarios (created second). -/
def pageB : Page :=
  { id := "b", title := "B",
    messages := [{ id := 4, type := "user", content := "in b", timestamp := 4 }],
    createdAt := 2 }

/-- Concrete page for deletion scenarios (created third, current). -/
def pageC : Page := { id := "c", title := "C", messages := [], createdAt := 3 }

/-! Concrete scenario for title derivation: the first message sent on a fresh
page is literally "New Chat". -/

/-- Scenario: a fresh page. -/
def c3page : Page :=
  { id := "1", title := "New Chat", messages := [], createdAt := 1 }

/-- Scenario: fresh page current, composer holds the text "New Chat". -/
def c3s0 : ChatState :=
  { chatPages := [c3page], currentPageId := some "1", messages := [],
    inputValue := "New Chat", isLoading := false }

/-- Scenario: after the first send. -/
def c3s1 : ChatState := (sendStart 10 c3s0).1

/-- Scenario: after the first send's response resolves. -/
def c3s2 : ChatState :=
  sendResolve ((sendStart 10 c3s0).2.getD default) .fail 15 c3s1

/-- Scenario: after typing "Hello there" and sending a second time. -/
def c3s3 : ChatState := (sendStart 20 { c3s2 with inputValue := "Hello there" }).1

end DocChat

namespace VoiceChat

/-- Scenario: the chat.js voice state after pressing the voice button once
(listening, session running). -/
def afterStart : VState := press init

/-- Scenario: after pressing the voice button a second time (the manual
toggle while listening). -/
def afterToggle : VState := press afterStart

end VoiceChat

/-! ## Theorems -/

namespace Ingest

/-- `handleDrop` on a non-empty input behaves exactly like
`handleFileInput` (the only difference is the empty-drop guard). -/
theorem handleDrop_cons (a : String) (l : List String) (s : IngestState) :
    handleDrop (a :: l) s = handleFileInput (a :: l) s := rfl

/-- `handleDrop` ignores an empty drop. -/
theorem handleDrop_nil (s : IngestState) : handleDrop [] s = s := rfl

/-- Behaviour of `handleFileInput` on any input list: the staged list becomes
the prior list with exactly the supported subset appended, and a skip error is
set when the subset is strictly smaller. -/
theorem handleFileInput_spec (input : List String) (s : IngestState) :
    (handleFileInput input s).files = s.files ++ input.filter isFileSupported
    ∧ ((input.filter isFileSupported).length < input.length →
        (handleFileInput input s).uploadStatus
          = some ⟨"error", skippedMessage⟩) := by
  by_cases h : (input.filter isFileSupported).length = input.length
  · refine ⟨by simp [handleFileInput, h], fun hlt => absurd h (Nat.ne_of_lt hlt)⟩
  · exact ⟨by simp [handleFileInput, h], fun _ => by simp [handleFileInput, h]⟩

/-- C4: for any input list of files handed to staging (drop or picker) and any
prior state, the new staged list is the prior list with exactly the input
files accepted by `isFileSupported` (case-insensitive `.docx`/`.pdf`/`.csv`/
`.txt` suffix) appended in input order — in particular no previously staged
file is dropped — and when the accepted subset is strictly smaller than the
input, the error status naming the allow-list is set. -/
theorem staging_filters_and_appends (input : List String) (s : IngestState) :
    (handleDrop input s).files = s.files ++ input.filter isFileSupported
    ∧ ((input.filter isFileSupported).length < input.length →
        (handleDrop input s).uploadStatus = some ⟨"error", skippedMessage⟩)
    ∧ (handleFileInput input s).files = s.files ++ input.filter isFileSupported
    ∧ ((input.filter isFileSupported).length < input.length →
        (handleFileInput input s).uploadStatus
          = some ⟨"error", skippedMessage⟩) := by
  rcases input with _ | ⟨a, l⟩
  · exact ⟨by simp [handleDrop_nil], fun h => by simp at h,
      (handleFileInput_spec [] s).1, (handleFileInput_spec [] s).2⟩
  · exact ⟨by rw [handleDrop_cons]; exact (handleFileInput_spec (a :: l) s).1,
      by rw [handleDrop_cons]; exact (handleFileInput_spec (a :: l) s).2,
      (handleFileInput_spec (a :: l) s).1, (handleFileInput_spec (a :: l) s).2⟩

/-- Witness for `staging_filters_and_appends`: dropping a supported
(`Report.PDF`, case-insensitive) and an unsupported (`setup.exe`) file onto an
empty stage stages exactly the supported one and raises the skip error. -/
theorem staging_filters_and_appends_witness :
    (["Report.PDF", "setup.exe"].filter isFileSupported).length < 2
    ∧ (handleDrop ["Report.PDF", "setup.exe"] ⟨["old.txt"], none, false⟩).files
        = ["old.txt", "Report.PDF"]
    ∧ (handleDrop ["Report.PDF", "setup.exe"]
        ⟨["old.txt"], none, false⟩).uploadStatus
        = some ⟨"error", skippedMessage⟩ := by
  have h := staging_filters_and_appends ["Report.PDF", "setup.exe"]
    ⟨["old.txt"], none, false⟩
  exact ⟨by decide, by rw [h.1]; decide, h.2.1 (by decide)⟩

/-- C8: `uploadFiles` on an empty staged list sets the fixed error status,
issues no network request, and leaves the staged list and in-flight flag
unchanged. -/
theorem upload_empty_noop (outcome : UploadOutcome) (s : IngestState)
    (h : s.files = []) :
    (uploadFiles outcome s).1.uploadStatus = some ⟨"error", emptyListError⟩
    ∧ (uploadFiles outcome s).2 = false
    ∧ (uploadFiles outcome s).1.files = s.files
    ∧ (uploadFiles outcome s).1.isUploading = s.isUploading := by
  simp [uploadFiles, h]

/-- Witness for `upload_empty_noop` at the empty stage. -/
theorem upload_empty_noop_witness :
    (IngestState.mk [] none false).files = []
    ∧ ((uploadFiles .fail ⟨[], none, false⟩).1.uploadStatus
          = some ⟨"error", emptyListError⟩
      ∧ (uploadFiles .fail ⟨[], none, false⟩).2 = false
      ∧ (uploadFiles .fail ⟨[], none, false⟩).1.files = []
      ∧ (uploadFiles .fail ⟨[], none, false⟩).1.isUploading = false) :=
  ⟨rfl, upload_empty_noop .fail ⟨[], none, false⟩ rfl⟩

/-- C7: when `uploadFiles` runs with a non-empty staged list, a network or
non-2xx failure leaves the staged list exactly as it was and sets the generic
failure status; and whatever the outcome, the in-flight flag is false once
the operation (including its `finally`) completes. -/
theorem upload_failure_atomic (outcome : UploadOutcome) (s : IngestState)
    (h : s.files ≠ []) :
    (outcome = .fail →
      (uploadFiles outcome s).1.files = s.files
      ∧ (uploadFiles outcome s).1.uploadStatus
          = some ⟨"error", genericUploadError⟩)
    ∧ (uploadFiles outcome s).1.isUploading = false := by
  have hne : s.files.isEmpty = false := by
    simpa [List.isEmpty_iff] using h
  cases outcome <;> simp [uploadFiles, hne]

/-- Witness for `upload_failure_atomic`: a failing upload of one staged file
keeps the file, sets the generic error and clears the in-flight flag. -/
theorem upload_failure_atomic_witness :
    (IngestState.mk ["a.pdf"] none true).files ≠ []
    ∧ (uploadFiles .fail ⟨["a.pdf"], none, true⟩).1.files = ["a.pdf"]
    ∧ (uploadFiles .fail ⟨["a.pdf"], none, true⟩).1.uploadStatus
        = some ⟨"error", genericUploadError⟩
    ∧ (uploadFiles .fail ⟨["a.pdf"], none, true⟩).1.isUploading = false := by
  have h := upload_failure_atomic .fail ⟨["a.pdf"], none, true⟩ (by decide)
  exact ⟨by decide, (h.1 rfl).1, (h.1 rfl).2, h.2⟩

end Ingest

namespace DocChat

/-- Encoding then decoding one message is the identity. -/
theorem msgFromJson_msgToJson (m : Message) :
    msgFromJson (msgToJson m) = some m := by
  cases m with
  | mk i t c ctx ts => cases ctx <;> rfl

/-- Encoding then decoding a message list is the identity. -/
theorem decodeList_msg_roundtrip (msgs : List Message) :
    decodeList msgFromJson (msgs.map msgToJson) = some msgs := by
  induction msgs with
  | nil => rfl
  | cons m msgs ih =>
      simp [decodeList, msgFromJson_msgToJson, ih]

/-- Encoding then decoding one page is the identity. -/
theorem pageFromJson_pageToJson (p : Page) :
    pageFromJson (pageToJson p) = some p := by
  cases p with
  | mk i t msgs c =>
      have h : pageFromJson (pageToJson ⟨i, t, msgs, c⟩)
          = match decodeList msgFromJson (msgs.map msgToJson) with
            | some ms => some ⟨i, t, ms, c⟩
            | none => none := rfl
      rw [h, decodeList_msg_roundtrip]

/-- Encoding then decoding a page list is the identity. -/
theorem decodeList_page_roundtrip (pages : List Page) :
    decodeList pageFromJson (pages.map pageToJson) = some pages := by
  induction pages with
  | nil => rfl
  | cons p pages ih =>
      simp [decodeList, pageFromJson_pageToJson, ih]

/-- C9: serializing the page list to the durable-storage value and decoding it
back the way the load effect does yields the same page list — same ids, same
titles, same message order and contents (round-trip identity of the
persistence encoding). -/
theorem storage_roundtrip (pages : List Page) :
    pagesFromJson (pagesToJson pages) = some pages :=
  decodeList_page_roundtrip pages

/-- Mapping an id-guarded update over a list containing no page with that id
is the identity. -/
theorem map_upd_eq_of_not_mem (f : Page → Page) (pid : String)
    (l : List Page) (h : pid ∉ l.map Page.id) :
    l.map (fun page => if some page.id = some pid then f page else page)
      = l := by
  induction l with
  | nil => rfl
  | cons a l ih =>
      simp only [List.map_cons, List.mem_cons, not_or] at h
      rw [List.map_cons, if_neg, ih h.2]
      simp only [Option.some.injEq]
      exact fun e => h.1 e.symm

/-- Mapping an id-guarded update over a list in which exactly one page carries
the id rewrites that page alone. -/
theorem map_upd_unique (f : Page → Page) (pid : String) (l₁ l₂ : List Page)
    (p : Page) (hp : p.id = pid) (h1 : pid ∉ l₁.map Page.id)
    (h2 : pid ∉ l₂.map Page.id) :
    (l₁ ++ p :: l₂).map
        (fun page => if some page.id = some pid then f page else page)
      = l₁ ++ f p :: l₂ := by
  rw [List.map_append, map_upd_eq_of_not_mem f pid l₁ h1, List.map_cons,
      if_pos (by rw [hp]), map_upd_eq_of_not_mem f pid l₂ h2]

/-- C10: `updatePageTitle` and `updatePageMessages` with an id absent from the
page list leave the list unchanged — in particular a query response resolving
after its originating page was deleted modifies no page in the store — and
with a present (unique) id they rewrite only the matching page's title
(respectively messages) field, leaving every other page and the matching
page's other fields intact. -/
theorem update_ops_frame (s : ChatState) (pid : String) (t : String)
    (ms : List Message) :
    (pid ∉ pageIds s →
      (updatePageTitle (some pid) t s).chatPages = s.chatPages
      ∧ (updatePageMessages (some pid) ms s).chatPages = s.chatPages)
    ∧ (∀ l₁ p l₂, s.chatPages = l₁ ++ p :: l₂ → p.id = pid →
        pid ∉ l₁.map Page.id → pid ∉ l₂.map Page.id →
        (updatePageTitle (some pid) t s).chatPages
          = l₁ ++ { p with title := jsTake 50 t } :: l₂
        ∧ (updatePageMessages (some pid) ms s).chatPages
          = l₁ ++ { p with messages := ms } :: l₂) := by
  constructor
  · intro h
    exact ⟨map_upd_eq_of_not_mem _ pid _ h, map_upd_eq_of_not_mem _ pid _ h⟩
  · intro l₁ p l₂ hs hp h1 h2
    constructor
    · show s.chatPages.map _ = _
      rw [hs]
      exact map_upd_unique _ pid l₁ l₂ p hp h1 h2
    · show s.chatPages.map _ = _
      rw [hs]
      exact map_upd_unique _ pid l₁ l₂ p hp h1 h2

/-- In a list where no earlier page carries `p.id`, the current-page lookup
of `sendMessage` finds `p`. -/
theorem find?_unique_id (l₁ l₂ : List Page) (p : Page)
    (h1 : p.id ∉ l₁.map Page.id) :
    (l₁ ++ p :: l₂).find? (fun q => some q.id == some p.id) = some p := by
  induction l₁ with
  | nil => exact List.find?_cons_of_pos l₂ (by simp)
  | cons a l ih =>
      simp only [List.map_cons, List.mem_cons, not_or] at h1
      rw [List.cons_append, List.find?_cons_of_neg, ih h1.2]
      simp only [beq_iff_eq, Option.some.injEq]
      exact fun e => h1.1 e.symm

/-- `selectPage` never changes the page list. -/
theorem selectPage_chatPages (pageId : String) (s : ChatState) :
    (selectPage pageId s).chatPages = s.chatPages := by
  unfold selectPage
  split <;> rfl

/-- Any burst of page selections leaves the page list unchanged. -/
theorem selects_chatPages (sel : List String) (s : ChatState) :
    (sel.foldl (fun t q => selectPage q t) s).chatPages = s.chatPages := by
  induction sel generalizing s with
  | nil => rfl
  | cons q sel ih => rw [List.foldl_cons, ih, selectPage_chatPages]

/-- Full behaviour of the synchronous half of `sendMessage` when the guard
passes and the current page id occurs exactly once in the list: the user
message is appended to the view and to the current page, the title is derived
from the raw input exactly when it is still `"New Chat"`, the composer is
cleared, the in-flight flag set, and the closure captures the call-time page
id and appended list. -/
theorem sendStart_spec (s : ChatState) (now : Nat) (l₁ l₂ : List Page)
    (p : Page) (hpages : s.chatPages = l₁ ++ p :: l₂)
    (hcur : s.currentPageId = some p.id)
    (h1 : p.id ∉ l₁.map Page.id) (h2 : p.id ∉ l₂.map Page.id)
    (htrim : jsTrim s.inputValue ≠ "") (hload : s.isLoading = false) :
    (sendStart now s).1.chatPages
      = l₁ ++ { p with
          title := if p.title = "New Chat" then jsTake 50 s.inputValue
                   else p.title,
          messages := s.messages ++
            [{ id := now, type := "user", content := s.inputValue,
               timestamp := now }] } :: l₂
    ∧ (sendStart now s).1.currentPageId = s.currentPageId
    ∧ (sendStart now s).1.messages = s.messages ++
        [{ id := now, type := "user", content := s.inputValue,
           timestamp := now }]
    ∧ (sendStart now s).1.isLoading = true
    ∧ (sendStart now s).2 = some ⟨some p.id,
        s.messages ++
          [{ id := now, type := "user", content := s.inputValue,
             timestamp := now }],
        s.inputValue⟩ := by
  have hguard : ¬(jsTrim s.inputValue = "" ∨ s.isLoading = true) := by
    simp [htrim, hload]
  have hfind : s.chatPages.find? (fun q => some q.id == s.currentPageId)
      = some p := by
    rw [hpages, hcur]
    exact find?_unique_id l₁ l₂ p h1
  unfold sendStart
  rw [if_neg hguard]
  simp only [hfind]
  by_cases ht : p.title = "New Chat"
  · rw [if_pos ht]
    refine ⟨?_, ?_, ?_, ?_, ?_⟩
    · simp only [updatePageTitle, updatePageMessages, hcur, hpages]
      rw [if_pos ht]
      rw [map_upd_unique (fun page => { page with messages := s.messages ++
            [{ id := now, type := "user", content := s.inputValue,
               timestamp := now }] }) p.id l₁ l₂ p rfl h1 h2]
      exact map_upd_unique _ p.id l₁ l₂ _ rfl h1 h2
    · rfl
    · rfl
    · trivial
    · rw [hcur]
  · rw [if_neg ht]
    refine ⟨?_, ?_, ?_, ?_, ?_⟩
    · simp only [updatePageMessages, hcur, hpages]
      rw [if_neg ht]
      exact map_upd_unique _ p.id l₁ l₂ p rfl h1 h2
    · rfl
    · rfl
    · trivial
    · rw [hcur]

/-- C3 (amended): a send that passes the guard on a page whose title is still
"New Chat" sets that page's title to the raw sent text truncated to 50
characters, and a send on a page whose title differs from "New Chat" leaves
the title unchanged.  (Equivalently: a subsequent send alters the title only
when the title is still literally "New Chat", which happens exactly when an
earlier send's text was itself "New Chat" — see the counterexample.) -/
theorem first_send_sets_title (s : ChatState) (now : Nat) (l₁ l₂ : List Page)
    (p : Page) (hpages : s.chatPages = l₁ ++ p :: l₂)
    (hcur : s.currentPageId = some p.id)
    (h1 : p.id ∉ l₁.map Page.id) (h2 : p.id ∉ l₂.map Page.id)
    (htrim : jsTrim s.inputValue ≠ "") (hload : s.isLoading = false) :
    (p.title = "New Chat" →
      (sendStart now s).1.chatPages
        = l₁ ++ { p with
            title := jsTake 50 s.inputValue,
            messages := s.messages ++
              [{ id := now, type := "user", content := s.inputValue,
                 timestamp := now }] } :: l₂)
    ∧ (p.title ≠ "New Chat" →
      (sendStart now s).1.chatPages
        = l₁ ++ { p with
            messages := s.messages ++
              [{ id := now, type := "user", content := s.inputValue,
                 timestamp := now }] } :: l₂) := by
  have h := (sendStart_spec s now l₁ l₂ p hpages hcur h1 h2 htrim hload).1
  constructor
  · intro ht
    rw [h, if_pos ht]
  · intro ht
    rw [h, if_neg ht]

/-- Witness for `first_send_sets_title`: the first send of "New Chat" on the
fresh single-page store sets the title to "New Chat" (its own 50-character
truncation). -/
theorem first_send_sets_title_witness :
    jsTrim c3s0.inputValue ≠ ""
    ∧ (sendStart 10 c3s0).1.chatPages
      = [{ c3page with
           title := "New Chat",
           messages := [{ id := 10, type := "user", content := "New Chat",
                          timestamp := 10 }] }] := by
  have h := first_send_sets_title c3s0 10 [] [] c3page rfl rfl (by decide)
    (by decide) (by decide) rfl
  refine ⟨by decide, ?_⟩
  rw [h.1 rfl]
  decide

/-- C3 counterexample: a page is created with title "New Chat"; the first
send's text is literally "New Chat", so the title becomes "New Chat" again;
the second (subsequent) send of "Hello there" then alters the title to
"Hello there" — refuting "subsequent sends on that page never alter the
title". -/
theorem second_send_alters_title_counterexample :
    c3s1.chatPages.map Page.title = ["New Chat"]
    ∧ c3s3.chatPages.map Page.title = ["Hello there"] := by decide

/-- C1 (amended): a send issued while page `p` is current captures `p.id` in
its closure; whatever pages the user selects before the response resolves,
the assistant (or error) message is appended to issuing page `p` — the page
that was current at call time — and every other page (including the page
current at resolution time) is unchanged in the store. -/
theorem send_resolves_to_issuing_page (s : ChatState) (now now2 : Nat)
    (outcome : QueryOutcome) (sel : List String) (l₁ l₂ : List Page) (p : Page)
    (hpages : s.chatPages = l₁ ++ p :: l₂)
    (hcur : s.currentPageId = some p.id)
    (h1 : p.id ∉ l₁.map Page.id) (h2 : p.id ∉ l₂.map Page.id)
    (htrim : jsTrim s.inputValue ≠ "") (hload : s.isLoading = false) :
    (sendStart now s).2 = some ⟨some p.id,
        s.messages ++ [{ id := now, type := "user", content := s.inputValue,
                         timestamp := now }], s.inputValue⟩
    ∧ (sendResolve ⟨some p.id,
          s.messages ++ [{ id := now, type := "user", content := s.inputValue,
                           timestamp := now }], s.inputValue⟩
        outcome now2
        (sel.foldl (fun t q => selectPage q t) (sendStart now s).1)).chatPages
      = l₁ ++ { p with
          title := if p.title = "New Chat" then jsTake 50 s.inputValue
                   else p.title,
          messages := (s.messages ++
            [{ id := now, type := "user", content := s.inputValue,
               timestamp := now }]) ++ [replyMessage outcome now2] } :: l₂ := by
  have hs := sendStart_spec s now l₁ l₂ p hpages hcur h1 h2 htrim hload
  refine ⟨hs.2.2.2.2, ?_⟩
  simp only [sendResolve, updatePageMessages]
  rw [selects_chatPages, hs.1]
  exact map_upd_unique _ p.id l₁ l₂ _ rfl h1 h2

/-- Witness for `send_resolves_to_issuing_page`: a send issued on page "1" of
a two-page store, page "2" selected mid-flight, response resolved. -/
theorem send_resolves_to_issuing_page_witness :
    jsTrim c1s0.inputValue ≠ ""
    ∧ (sendResolve ⟨some c1P.id,
          c1s0.messages ++
            [{ id := 10, type := "user", content := c1s0.inputValue,
               timestamp := 10 }],
          c1s0.inputValue⟩
        (.ok "the answer" none) 20
        (["2"].foldl (fun t q => selectPage q t) (sendStart 10 c1s0).1)).chatPages
      = [] ++ { c1P with
          title := if c1P.title = "New Chat" then jsTake 50 c1s0.inputValue
                   else c1P.title,
          messages := (c1s0.messages ++
            [{ id := 10, type := "user", content := c1s0.inputValue,
               timestamp := 10 }]) ++
            [replyMessage (.ok "the answer" none) 20] } :: [c1Q] := by
  have h := send_resolves_to_issuing_page c1s0 10 20 (.ok "the answer" none)
    ["2"] [] [c1Q] c1P rfl rfl (by decide) (by decide) (by decide) rfl
  exact ⟨by decide, h.2⟩

/-- In a list strictly sorted by `createdAt`, the last element is the most
recently created. -/
theorem getLast?_max_of_pairwise (l : List Page) (r : Page)
    (hp : l.Pairwise (fun a b => a.createdAt < b.createdAt))
    (hr : l.getLast? = some r) :
    ∀ q ∈ l, q.createdAt ≤ r.createdAt := by
  induction l with
  | nil => simp at hr
  | cons a l ih =>
      rcases l with _ | ⟨b, l'⟩
      · simp only [List.getLast?_singleton, Option.some.injEq] at hr
        subst hr
        intro q hq
        simp only [List.mem_singleton] at hq
        subst hq
        exact le_refl _
      · rw [List.getLast?_cons_cons] at hr
        have hpc := List.pairwise_cons.mp hp
        intro q hq
        rcases List.mem_cons.mp hq with rfl | hq'
        · exact le_of_lt (hpc.1 r (List.mem_of_mem_getLast? hr))
        · exact ih hpc.2 hr q hq'

/-- C5: deleting the current page when other pages remain keeps exactly the
other pages and selects the last remaining page — the most recently created
one, the page list being ordered by creation instant — as current, loading
its messages; deleting the last remaining page leaves a list of exactly one
fresh page with empty messages, which becomes current. -/
theorem delete_page_reselects (s : ChatState) (pid : String) (now : Nat)
    (hcur : s.currentPageId = some pid)
    (hsorted : s.chatPages.Pairwise (fun a b => a.createdAt < b.createdAt)) :
    (∀ r, (s.chatPages.filter (fun q => q.id != pid)).getLast? = some r →
      (deletePage pid now s).currentPageId = some r.id
      ∧ (deletePage pid now s).messages = r.messages
      ∧ (deletePage pid now s).chatPages
          = s.chatPages.filter (fun q => q.id != pid)
      ∧ ∀ q ∈ s.chatPages.filter (fun q => q.id != pid),
          q.createdAt ≤ r.createdAt)
    ∧ ((s.chatPages.filter (fun q => q.id != pid)) = [] →
      (deletePage pid now s).chatPages
        = [{ id := toString now, title := "New Chat", messages := [],
             createdAt := now }]
      ∧ (deletePage pid now s).currentPageId = some (toString now)
      ∧ (deletePage pid now s).messages = []) := by
  constructor
  · intro r hr
    simp only [deletePage]
    rw [if_pos hcur.symm, hr]
    exact ⟨rfl, rfl, rfl, getLast?_max_of_pairwise _ r (hsorted.filter _) hr⟩
  · intro hempty
    simp only [deletePage]
    rw [if_pos hcur.symm, hempty]
    exact ⟨rfl, rfl, rfl⟩

/-- Witness for `delete_page_reselects`: deleting current page "c" from
`[pageA, pageB, pageC]` keeps `[pageA, pageB]` and selects "b" with its
messages; deleting the only page "a" leaves one fresh page "9". -/
theorem delete_page_reselects_witness :
    (ChatState.mk [pageA, pageB, pageC] (some "c") [] "" false).currentPageId
        = some "c"
    ∧ (deletePage "c" 9 ⟨[pageA, pageB, pageC], some "c", [], "", false⟩).currentPageId
        = some "b"
    ∧ (deletePage "c" 9 ⟨[pageA, pageB, pageC], some "c", [], "", false⟩).messages
        = pageB.messages
    ∧ (deletePage "c" 9 ⟨[pageA, pageB, pageC], some "c", [], "", false⟩).chatPages
        = [pageA, pageB]
    ∧ (deletePage "a" 9 ⟨[pageA], some "a", [], "", false⟩).chatPages
        = [{ id := "9", title := "New Chat", messages := [], createdAt := 9 }]
    ∧ (deletePage "a" 9 ⟨[pageA], some "a", [], "", false⟩).currentPageId
        = some "9" := by
  have h1 := delete_page_reselects ⟨[pageA, pageB, pageC], some "c", [], "", false⟩
    "c" 9 rfl (by decide)
  have h2 := delete_page_reselects ⟨[pageA], some "a", [], "", false⟩
    "a" 9 rfl (by decide)
  have hl := h1.1 pageB (by decide)
  have he := h2.2 (by decide)
  exact ⟨rfl, hl.1, hl.2.1, hl.2.2.1.trans (by decide), he.1, he.2.1⟩

/-- C1 counterexample: pages "1" (issuer) and "2"; a send is issued on page
"1", the user selects page "2", then the response resolves.  At resolution
time the current page is "2", yet the assistant message is appended to page
"1" and page "2" is unchanged — the response is attributed to the issuing
page, not to the page current at resolution time as the claim states. -/
theorem send_resolve_crosspage_counterexample :
    c1final.currentPageId = some "2"
    ∧ c1final.chatPages
      = [{ c1P with
            messages :=
              [{ id := 10, type := "user", content := "hi", timestamp := 10 },
               { id := 21, type := "assistant", content := "the answer",
                 timestamp := 20 }] }, c1Q] := by decide

end DocChat

namespace VoicePart

/-- `onresult` events never touch the listening flag, the session, or the
maximum-duration timer in the part_000 variant. -/
theorem part_results_fields (ts : List String) (s : VState) :
    (results ts s).maxTimer = s.maxTimer
    ∧ (results ts s).sessionActive = s.sessionActive
    ∧ (results ts s).listening = s.listening := by
  induction ts generalizing s with
  | nil => exact ⟨rfl, rfl, rfl⟩
  | cons t ts ih =>
      have hr : (result t s).maxTimer = s.maxTimer
          ∧ (result t s).sessionActive = s.sessionActive
          ∧ (result t s).listening = s.listening := by
        unfold result
        split <;> exact ⟨rfl, rfl, rfl⟩
      refine ⟨?_, ?_, ?_⟩
      · rw [results, List.foldl_cons]
        exact ((ih (result t s)).1).trans hr.1
      · rw [results, List.foldl_cons]
        exact ((ih (result t s)).2.1).trans hr.2.1
      · rw [results, List.foldl_cons]
        exact ((ih (result t s)).2.2).trans hr.2.2

end VoicePart

namespace VoiceChat

/-- `onresult` events never touch the listening flag, the session, the stop
request, or the maximum-duration timer in the chat.js variant (they only
update the composer and re-arm the silence timer). -/
theorem chat_results_fields (ts : List String) (s : VState) :
    (results ts s).totalTimer = s.totalTimer
    ∧ (results ts s).sessionActive = s.sessionActive
    ∧ (results ts s).listening = s.listening
    ∧ (results ts s).stopRequested = s.stopRequested := by
  induction ts generalizing s with
  | nil => exact ⟨rfl, rfl, rfl, rfl⟩
  | cons t ts ih =>
      have hr : (result t s).totalTimer = s.totalTimer
          ∧ (result t s).sessionActive = s.sessionActive
          ∧ (result t s).listening = s.listening
          ∧ (result t s).stopRequested = s.stopRequested := by
        unfold result
        split <;> exact ⟨rfl, rfl, rfl, rfl⟩
      refine ⟨?_, ?_, ?_, ?_⟩
      · rw [results, List.foldl_cons]
        exact ((ih (result t s)).1).trans hr.1
      · rw [results, List.foldl_cons]
        exact ((ih (result t s)).2.1).trans hr.2.1
      · rw [results, List.foldl_cons]
        exact ((ih (result t s)).2.2.1).trans hr.2.2.1
      · rw [results, List.foldl_cons]
        exact ((ih (result t s)).2.2.2).trans hr.2.2.2

end VoiceChat

/-- C6 counterexample (chat.js variant): pressing the voice button while
listening flips the `listening` flag off but leaves the recognition session
active with no stop requested — and a further `onresult` from that session
still overwrites the composer.  Capture is therefore not stopped immediately
by the toggle (though no second session is started). -/
theorem voice_toggle_keeps_session_counterexample :
    VoiceChat.afterStart.listening = true
    ∧ VoiceChat.afterToggle.listening = false
    ∧ VoiceChat.afterToggle.sessionActive = true
    ∧ VoiceChat.afterToggle.stopRequested = false
    ∧ (VoiceChat.result "still capturing" VoiceChat.afterToggle).inputValue
        = "still capturing"
    ∧ VoiceChat.afterToggle.sessionsStarted = 1 := by decide

/-- C6 (amended): invoking the voice-input handler while listening never
starts a second recognition session in either variant, and immediately sets
the state to idle; in the part_000 variant it also stops the active session
and clears the max-duration timer, while in the chat.js variant the session
and its timers are left untouched (the session keeps running until its own
timers stop it — see the counterexample).  In both variants, `onresult`
events (continuous speech) never clear the max-duration timer, and once that
timer fires the capture returns to idle: directly in part_000, and upon the
session-end event that the requested stop guarantees in chat.js. -/
theorem voice_toggle_and_max_timer :
    (∀ s : VoicePart.VState, s.listening = true →
      (VoicePart.press s).listening = false
      ∧ (VoicePart.press s).sessionsStarted = s.sessionsStarted
      ∧ (VoicePart.press s).stopRequested = (s.stopRequested || s.sessionActive)
      ∧ (VoicePart.press s).maxTimer = false)
    ∧ (∀ s : VoiceChat.VState, s.listening = true →
      (VoiceChat.press s).listening = false
      ∧ (VoiceChat.press s).sessionsStarted = s.sessionsStarted
      ∧ (VoiceChat.press s).sessionActive = s.sessionActive
      ∧ (VoiceChat.press s).stopRequested = s.stopRequested
      ∧ (VoiceChat.press s).totalTimer = s.totalTimer)
    ∧ (∀ (ts : List String) (s : VoicePart.VState), s.maxTimer = true →
      (VoicePart.results ts s).maxTimer = true
      ∧ (VoicePart.totalFire (VoicePart.results ts s)).listening = false
      ∧ (VoicePart.totalFire (VoicePart.results ts s)).maxTimer = false)
    ∧ (∀ (ts : List String) (s : VoiceChat.VState),
        s.totalTimer = true → s.sessionActive = true →
      (VoiceChat.results ts s).totalTimer = true
      ∧ (VoiceChat.totalFire (VoiceChat.results ts s)).stopRequested = true
      ∧ (VoiceChat.endEvent
          (VoiceChat.totalFire (VoiceChat.results ts s))).listening = false
      ∧ (VoiceChat.endEvent
          (VoiceChat.totalFire (VoiceChat.results ts s))).sessionActive
          = false) := by
  refine ⟨?_, ?_, ?_, ?_⟩
  · intro s h
    simp [VoicePart.press, VoicePart.stopListening, h]
  · intro s h
    simp [VoiceChat.press, h]
  · intro ts s h
    have hf := VoicePart.part_results_fields ts s
    have hm : (VoicePart.results ts s).maxTimer = true := hf.1.trans h
    refine ⟨hm, ?_, ?_⟩
    · simp [VoicePart.totalFire, VoicePart.stopListening, hm]
    · simp [VoicePart.totalFire, VoicePart.stopListening, hm]
  · intro ts s ht ha
    have hf := VoiceChat.chat_results_fields ts s
    have hm : (VoiceChat.results ts s).totalTimer = true := hf.1.trans ht
    have hs : (VoiceChat.results ts s).sessionActive = true := hf.2.1.trans ha
    refine ⟨hm, ?_, ?_, ?_⟩
    · simp [VoiceChat.totalFire, hm, hs]
    · simp [VoiceChat.totalFire, VoiceChat.endEvent, hm, hs]
    · simp [VoiceChat.totalFire, VoiceChat.endEvent, hm, hs]

/-- Witness for `voice_toggle_and_max_timer`: concrete runs of both variants
from their initial states. -/
theorem voice_toggle_and_max_timer_witness :
    (VoicePart.press VoicePart.init).listening = true
    ∧ ((VoicePart.press (VoicePart.press VoicePart.init)).listening = false
      ∧ (VoicePart.press (VoicePart.press VoicePart.init)).sessionsStarted = 1
      ∧ (VoicePart.press (VoicePart.press VoicePart.init)).stopRequested = true)
    ∧ (VoiceChat.afterStart.listening = true
      ∧ (VoiceChat.press VoiceChat.afterStart).sessionsStarted = 1)
    ∧ (VoicePart.totalFire
        (VoicePart.results ["a", "b"] (VoicePart.press VoicePart.init))).listening
        = false
    ∧ (VoiceChat.endEvent (VoiceChat.totalFire
        (VoiceChat.results ["a", "b"] VoiceChat.afterStart))).listening
        = false := by
  have h := voice_toggle_and_max_timer
  refine ⟨by decide, ⟨?_, ?_, ?_⟩, ⟨by decide, ?_⟩, ?_, ?_⟩
  · exact (h.1 _ (by decide)).1
  · exact ((h.1 _ (by decide)).2.1).trans (by decide)
  · exact ((h.1 _ (by decide)).2.2.1).trans (by decide)
  · exact ((h.2.1 _ (by decide)).2.1).trans (by decide)
  · exact (h.2.2.1 ["a", "b"] _ (by decide)).2.1
  · exact (h.2.2.2 ["a", "b"] VoiceChat.afterStart (by decide) (by decide)).2.2.1

namespace DocChat

/-- A guarded per-page update that does not change ids preserves the id
list. -/
theorem map_guarded_ids (pid : Option String) (f : Page → Page)
    (hf : ∀ p, (f p).id = p.id) (l : List Page) :
    (l.map (fun page => if some page.id = pid then f page else page)).map
        Page.id = l.map Page.id := by
  induction l with
  | nil => rfl
  | cons a l ih =>
      simp only [List.map_cons, ih]
      congr 1
      split
      · exact hf a
      · rfl

/-- The synchronous half of `sendMessage` never changes the page-id list or
the current page id. -/
theorem sendStart_preserves (now : Nat) (s : ChatState) :
    pageIds (sendStart now s).1 = pageIds s
    ∧ (sendStart now s).1.currentPageId = s.currentPageId := by
  unfold sendStart
  by_cases hg : (jsTrim s.inputValue = "" ∨ s.isLoading = true)
  · rw [if_pos hg]
    exact ⟨rfl, rfl⟩
  · rw [if_neg hg]
    cases hfind : s.chatPages.find? (fun p => some p.id == s.currentPageId) with
    | none =>
        simp only [hfind]
        refine ⟨?_, rfl⟩
        simp only [pageIds, updatePageMessages]
        refine map_guarded_ids _ _ ?_ s.chatPages
        intro p
        rfl
    | some currentPage =>
        simp only [hfind]
        by_cases ht : currentPage.title = "New Chat"
        · rw [if_pos ht]
          refine ⟨?_, rfl⟩
          simp only [pageIds, updatePageTitle, updatePageMessages]
          refine (map_guarded_ids _ _ ?_ _).trans
            (map_guarded_ids _ _ ?_ s.chatPages)
          all_goals intro p
          all_goals rfl
        · rw [if_neg ht]
          refine ⟨?_, rfl⟩
          simp only [pageIds, updatePageMessages]
          refine map_guarded_ids _ _ ?_ s.chatPages
          intro p
          rfl

/-- The landing of an in-flight `sendMessage` continuation never changes the
page-id list or the current page id. -/
theorem sendResolve_preserves (pending : PendingQuery) (outcome : QueryOutcome)
    (now : Nat) (s : ChatState) :
    pageIds (sendResolve pending outcome now s) = pageIds s
    ∧ (sendResolve pending outcome now s).currentPageId = s.currentPageId := by
  refine ⟨?_, rfl⟩
  simp only [pageIds, sendResolve, updatePageMessages]
  refine map_guarded_ids _ _ ?_ s.chatPages
  intro p
  rfl

/-- Every chat operation preserves store well-formedness, under its clock
freshness condition. -/
theorem applyOp_inv (op : ChatOp) (s : ChatState) (hInv : StoreInv s)
    (hfr : opFresh op s = true) : StoreInv (applyOp op s) := by
  obtain ⟨hnd, pid0, hc, hmem⟩ := hInv
  cases op with
  | create now =>
      have hfresh : toString now ∉ pageIds s := by
        simpa [opFresh, List.elem_iff, List.contains] using hfr
      refine ⟨?_, toString now, rfl, ?_⟩
      · show ((s.chatPages ++ [_]).map Page.id).Nodup
        rw [List.map_append]
        refine List.nodup_append.mpr ⟨hnd, List.nodup_singleton _, ?_⟩
        intro x hx hx2
        simp only [List.map_cons, List.map_nil, List.mem_singleton] at hx2
        subst hx2
        exact hfresh hx
      · show toString now ∈ (s.chatPages ++ [_]).map Page.id
        rw [List.map_append]
        exact List.mem_append.mpr (Or.inr (by simp))
  | delete pageId now =>
      have hfresh : toString now ∉ pageIds s := by
        simpa [opFresh, List.elem_iff, List.contains] using hfr
      have hndf : ((s.chatPages.filter
          (fun page => page.id != pageId)).map Page.id).Nodup :=
        List.Nodup.sublist ((List.filter_sublist _).map Page.id) hnd
      show StoreInv (deletePage pageId now s)
      simp only [StoreInv, deletePage]
      by_cases hc2 : some pageId = s.currentPageId
      · rw [if_pos hc2]
        cases hlast : (s.chatPages.filter
            (fun page => page.id != pageId)).getLast? with
        | some r =>
            simp only [hlast]
            exact ⟨hndf, r.id, rfl,
              List.mem_map_of_mem Page.id (List.mem_of_mem_getLast? hlast)⟩
        | none =>
            simp only [hlast]
            have hemp : (s.chatPages.filter
                (fun page => page.id != pageId)) = [] :=
              List.getLast?_eq_none_iff.mp hlast
            refine ⟨?_, toString now, rfl, ?_⟩
            · show ((s.chatPages.filter (fun page : Page => page.id != pageId)
                  ++ [_]).map Page.id).Nodup
              rw [hemp]
              simp
            · show toString now ∈ (s.chatPages.filter
                  (fun page : Page => page.id != pageId) ++ [_]).map Page.id
              rw [hemp]
              simp
      · rw [if_neg hc2]
        refine ⟨hndf, pid0, hc, ?_⟩
        obtain ⟨p, hp, hpid⟩ := List.mem_map.mp hmem
        refine List.mem_map.mpr ⟨p, List.mem_filter.mpr ⟨hp, ?_⟩, hpid⟩
        rw [bne_iff_ne]
        intro e
        exact hc2 (by rw [show pageId = pid0 from by rw [← hpid, e], hc])
  | select pageId =>
      show StoreInv (selectPage pageId s)
      simp only [StoreInv, selectPage]
      cases hfind : s.chatPages.find? (fun p => p.id == pageId) with
      | none =>
          simp only [hfind]
          exact ⟨hnd, pid0, hc, hmem⟩
      | some page =>
          simp only [hfind]
          refine ⟨hnd, pageId, rfl, ?_⟩
          have hp := List.find?_some hfind
          rw [beq_iff_eq] at hp
          exact hp ▸ List.mem_map_of_mem Page.id
            (List.mem_of_find?_eq_some hfind)
  | typeInput text => exact ⟨hnd, pid0, hc, hmem⟩
  | send now =>
      have hp := sendStart_preserves now s
      refine ⟨?_, pid0, ?_, ?_⟩
      · show (pageIds (sendStart now s).1).Nodup
        rw [hp.1]
        exact hnd
      · show (sendStart now s).1.currentPageId = some pid0
        rw [hp.2]
        exact hc
      · show pid0 ∈ pageIds (sendStart now s).1
        rw [hp.1]
        exact hmem
  | resolve pending outcome now =>
      have hp := sendResolve_preserves pending outcome now s
      refine ⟨?_, pid0, ?_, ?_⟩
      · show (pageIds (sendResolve pending outcome now s)).Nodup
        rw [hp.1]
        exact hnd
      · show (sendResolve pending outcome now s).currentPageId = some pid0
        rw [hp.2]
        exact hc
      · show pid0 ∈ pageIds (sendResolve pending outcome now s)
        rw [hp.1]
        exact hmem

/-- Store well-formedness is preserved along any fresh-clocked run. -/
theorem run_inv (ops : List ChatOp) (s : ChatState) (hInv : StoreInv s)
    (hfr : freshRun ops s = true) : StoreInv (run ops s) := by
  induction ops generalizing s with
  | nil => exact hInv
  | cons op ops ih =>
      rw [freshRun, Bool.and_eq_true] at hfr
      exact ih (applyOp op s) (applyOp_inv op s hInv hfr.1) hfr.2

/-- The load-from-storage effect establishes store well-formedness from any
snapshot a previous session could have written (or an absent key). -/
theorem loadFromStorage_inv (saved : Option (List Page)) (now : Nat)
    (h : WFStored saved) : StoreInv (loadFromStorage saved now) := by
  cases saved with
  | none =>
      refine ⟨by simp [pageIds, loadFromStorage, createNewPage, initialState],
        toString now, rfl, ?_⟩
      simp [pageIds, loadFromStorage, createNewPage, initialState]
  | some pages =>
      have h' : pages ≠ [] ∧ (pages.map Page.id).Nodup := h
      cases hlast : pages.getLast? with
      | none => exact absurd (List.getLast?_eq_none_iff.mp hlast) h'.1
      | some lastPage =>
          simp only [loadFromStorage, hlast]
          exact ⟨h'.2, lastPage.id, rfl,
            List.mem_map_of_mem Page.id (List.mem_of_mem_getLast? hlast)⟩

/-- C2: starting from any durable snapshot a previous session could have
written (or a first visit with no snapshot), after any sequence of user
operations — page creation, deletion, selection, typing, sends and the
landing of in-flight query continuations — whose page creations draw fresh
`Date.now()` tokens, the page ids are pairwise distinct and the current page
id refers to a page present in the list.  (`currentPageId` is null only in
`initialState`, before the load effect creates or restores the first
page.) -/
theorem reachable_store_well_formed (saved : Option (List Page)) (now0 : Nat)
    (ops : List ChatOp) (hsaved : WFStored saved)
    (hfresh : freshRun ops (loadFromStorage saved now0) = true) :
    StoreInv (run ops (loadFromStorage saved now0)) :=
  run_inv ops _ (loadFromStorage_inv saved now0 hsaved) hfresh

/-- Witness for `reachable_store_well_formed`: a first visit followed by a
type-send-resolve cycle, a page creation, a deletion and a selection. -/
theorem reachable_store_well_formed_witness :
    WFStored (none : Option (List Page))
    ∧ freshRun
        [.typeInput "hello", .send 5, .resolve ⟨some "0", [], "hello"⟩ .fail 6,
         .create 7, .delete "0" 8, .select "7"]
        (loadFromStorage none 0) = true
    ∧ StoreInv (run
        [.typeInput "hello", .send 5, .resolve ⟨some "0", [], "hello"⟩ .fail 6,
         .create 7, .delete "0" 8, .select "7"]
        (loadFromStorage none 0)) :=
  ⟨True.intro, by decide,
   reachable_store_well_formed none 0
     [.typeInput "hello", .send 5, .resolve ⟨some "0", [], "hello"⟩ .fail 6,
      .create 7, .delete "0" 8, .select "7"] True.intro (by decide)⟩

/-- Witness for `update_ops_frame`: a two-page store; updating the title of
the absent id "9" changes nothing, updating the messages of present id "2"
rewrites only that page. -/
theorem update_ops_frame_witness :
    ("9" ∉ pageIds ⟨[c1P, c1Q], some "1", [], "", false⟩
      ∧ (updatePageTitle (some "9") "x"
          ⟨[c1P, c1Q], some "1", [], "", false⟩).chatPages = [c1P, c1Q])
    ∧ ((updatePageMessages (some "2")
          [{ id := 5, type := "user", content := "m", timestamp := 5 }]
          ⟨[c1P, c1Q], some "1", [], "", false⟩).chatPages
        = [c1P, { c1Q with
            messages := [{ id := 5, type := "user", content := "m",
                           timestamp := 5 }] }]) := by
  have h9 := update_ops_frame ⟨[c1P, c1Q], some "1", [], "", false⟩ "9" "x" []
  have h2 := update_ops_frame ⟨[c1P, c1Q], some "1", [], "", false⟩ "2" "x"
    [{ id := 5, type := "user", content := "m", timestamp := 5 }]
  refine ⟨⟨by decide, ?_⟩, ?_⟩
  · exact (h9.1 (by decide)).1
  · exact (h2.2 [c1P] c1Q [] (by decide) (by decide) (by decide) (by decide)).2

end DocChat
